import Mathlib

set_option autoImplicit false

deriving instance DecidableEq for Except

namespace SlateAPI

/-- JavaScript strings of the TypeScript source are modelled as lists of characters. -/
abbrev Str := List Char

/-! ## Session store (src/plugins/auth.ts, src/modules/auth/service.ts)

The `core.sessions` table is modelled as a list of rows; the supabase query
builder calls are modelled by the list operations below. -/

/-- One row of the `core.sessions` table (the columns selected by the source). -/
structure SessionRow where
  token : Str
  user_id : Str
  expires_at : Int
  deriving DecidableEq

abbrev SessionStore := List SessionRow

/-- `.from('sessions').select(...).eq('token', token).single()`: `.single()`
yields the row when exactly one row matches, and an error result (hence `none`
for the caller, which treats `sessionError || !session` alike) otherwise. -/
def findSession (store : SessionStore) (token : Str) : Option SessionRow :=
  match store.filter (fun r => r.token == token) with
  | [r] => some r
  | _ => none

/-- `.from('sessions').delete().eq('token', token)`: removes every matching row. -/
def deleteByToken (store : SessionStore) (token : Str) : SessionStore :=
  store.filter (fun r => !(r.token == token))

/-- `verifySessionToken` of `src/plugins/auth.ts` (identical logic in
`AuthService.verifySession` up to the extra user fetch): look the token up;
on a miss return `none`; if the stored expiry is strictly before the current
time, issue a delete and return `none`; otherwise return the owning user id.
The source `await`s the delete but discards its `{ error }` outcome, so the
delete is best-effort: `deleteOk = true` models a delete that succeeded
(rows removed), `deleteOk = false` one that failed (store unchanged); the
returned value is the same either way. Returns (result, store after call). -/
def verifySessionToken (now : Int) (store : SessionStore) (token : Str)
    (deleteOk : Bool) : Option Str × SessionStore :=
  match findSession store token with
  | none => (none, store)
  | some s =>
    if s.expires_at < now then
      (none, if deleteOk then deleteByToken store token else store)
    else
      (some s.user_id, store)

/-! ## Auth middleware (src/plugins/auth.ts) -/

/-- JavaScript truthiness of a `string | null | undefined` value: `null`,
`undefined` and the empty string are falsy. -/
def truthy (o : Option Str) : Bool :=
  match o with
  | none => false
  | some s => !s.isEmpty

/-- Observable outcome of a preHandler: the `request.userId` it leaves behind
and the reply it sent (status code and error message), if any. -/
structure AuthOutcome where
  userId : Option Str
  status : Option Nat
  body : Option String
  deriving DecidableEq

/-- `requireAuth` of `src/plugins/auth.ts`. `cookieToken` is
`request.cookies?.session_token`; `verify` is the outcome of the awaited
`verifySessionToken(token)` call: `Except.error ()` when it threw,
`Except.ok uid` when it resolved. The source initialises `request.userId`
to null, replies 401 on a falsy token, 401 on a thrown error, 401 on a falsy
resolved id, and otherwise sets `request.userId` and sends no reply. -/
def requireAuth (cookieToken : Option Str) (verify : Except Unit (Option Str)) :
    AuthOutcome :=
  if truthy cookieToken = false then
    ⟨none, some 401, some "Not authenticated"⟩
  else
    match verify with
    | Except.error _ => ⟨none, some 401, some "Authentication failed"⟩
    | Except.ok uid =>
      if truthy uid = false then
        ⟨none, some 401, some "Invalid or expired session"⟩
      else
        ⟨uid, none, none⟩

/-- `optionalAuth` of `src/plugins/auth.ts`: never replies; on a falsy token
or a thrown error it leaves `request.userId` null, otherwise it runs
`request.userId = userId || null` (a falsy resolved id is coerced to null). -/
def optionalAuth (cookieToken : Option Str) (verify : Except Unit (Option Str)) :
    AuthOutcome :=
  if truthy cookieToken = false then
    ⟨none, none, none⟩
  else
    match verify with
    | Except.error _ => ⟨none, none, none⟩
    | Except.ok uid => ⟨if truthy uid then uid else none, none, none⟩

/-! ## In-process cache (src/lib/cache.ts) -/

/-- `CacheEntry<T>` of `src/lib/cache.ts`. -/
structure CacheEntry (α : Type) where
  data : α
  expiresAt : Int
  deriving DecidableEq

/-- The `Map<string, CacheEntry<any>>` backing the cache, as an
insertion-ordered association list with unique keys. -/
abbrev CacheMap (α : Type) := List (Str × CacheEntry α)

/-- `Cache.getCacheKey`: `` `${userId}:${endpoint}` ``. -/
def getCacheKey (userId endpoint : Str) : Str :=
  userId ++ ':' :: endpoint

/-- `Map.prototype.get`: the value stored at the key, if present. -/
def mapGet {α : Type} (m : CacheMap α) (k : Str) : Option (CacheEntry α) :=
  match m with
  | [] => none
  | kv :: rest => if kv.1 = k then some kv.2 else mapGet rest k

/-- `Map.prototype.set`: overwrite the entry at the key in place, or append
a new entry. -/
def mapSet {α : Type} (m : CacheMap α) (k : Str) (v : CacheEntry α) :
    CacheMap α :=
  match m with
  | [] => [(k, v)]
  | kv :: rest => if kv.1 = k then (k, v) :: rest else kv :: mapSet rest k v

/-- Result of one `getCachedOrFetch` call: the value returned (or the
producer's error, propagated), the cache map afterwards, and how many times
`fetchFn` was invoked during the call. -/
structure FetchResult (ε α : Type) where
  result : Except ε α
  cache : CacheMap α
  calls : Nat

/-- The miss path of `Cache.getCachedOrFetch`: `await fetchFn()` (one
invocation); a rejection propagates and caches nothing; a resolved value is
stored under the key with expiry `Date.now() + ttlMinutes * 60 * 1000` and
returned. -/
def fetchStore {ε α : Type} (now : Int) (m : CacheMap α) (key : Str)
    (fetchFn : Except ε α) (ttlMinutes : Int) : FetchResult ε α :=
  match fetchFn with
  | Except.error e => ⟨Except.error e, m, 1⟩
  | Except.ok data =>
    ⟨Except.ok data, mapSet m key ⟨data, now + ttlMinutes * 60 * 1000⟩, 1⟩

/-- `Cache.getCachedOrFetch`: return the cached data when an entry exists
with `expiresAt > Date.now()`, without invoking the producer; otherwise run
the miss path. The producer is modelled by its outcome `fetchFn`
(`Except.error` = rejected promise). -/
def getCachedOrFetch {ε α : Type} (now : Int) (m : CacheMap α)
    (userId endpoint : Str) (fetchFn : Except ε α) (ttlMinutes : Int) :
    FetchResult ε α :=
  match mapGet m (getCacheKey userId endpoint) with
  | some c =>
    if c.expiresAt > now then
      ⟨Except.ok c.data, m, 0⟩
    else
      fetchStore now m (getCacheKey userId endpoint) fetchFn ttlMinutes
  | none => fetchStore now m (getCacheKey userId endpoint) fetchFn ttlMinutes

/-- `Cache.clearUser`: delete every entry whose key starts with
`` `${userId}:` `` (JavaScript `String.prototype.startsWith`, i.e. the list
prefix test). -/
def clearUser {α : Type} (m : CacheMap α) (userId : Str) : CacheMap α :=
  m.filter (fun kv => !((userId ++ [':']).isPrefixOf kv.1))

/-! ## Helper lemmas -/

theorem mapGet_mapSet_self {α : Type} (m : CacheMap α) (k : Str)
    (v : CacheEntry α) : mapGet (mapSet m k v) k = some v := by
  induction m with
  | nil => simp [mapSet, mapGet]
  | cons kv rest ih =>
    by_cases h : kv.1 = k
    · simp [mapSet, mapGet, h]
    · simp [mapSet, mapGet, h, ih]

theorem mapGet_mapSet_ne {α : Type} (m : CacheMap α) (k k' : Str)
    (v : CacheEntry α) (h : k' ≠ k) :
    mapGet (mapSet m k v) k' = mapGet m k' := by
  induction m with
  | nil => simp [mapSet, mapGet, Ne.symm h]
  | cons kv rest ih =>
    by_cases hk : kv.1 = k
    · have h1 : ¬(k = k') := fun hh => h hh.symm
      have h2 : ¬(kv.1 = k') := by rw [hk]; exact h1
      simp [mapSet, mapGet, hk, h1, h2]
    · simp [mapSet, mapGet, hk, ih]

theorem mapGet_clearUser {α : Type} (m : CacheMap α) (u k : Str) :
    mapGet (clearUser m u) k =
      if (u ++ [':']).isPrefixOf k = true then none else mapGet m k := by
  induction m with
  | nil =>
    simp only [clearUser, List.filter_nil, mapGet]
    split <;> rfl
  | cons kv rest ih =>
    simp only [clearUser, List.filter_cons] at *
    by_cases hp : (u ++ [':']).isPrefixOf kv.1 = true
    · rw [if_neg (by simp [hp])]
      rw [ih]
      by_cases hk : (u ++ [':']).isPrefixOf k = true
      · simp [hk]
      · have hne : ¬(kv.1 = k) := fun he => hk (he ▸ hp)
        simp [mapGet, hk, hne]
    · rw [if_pos (by simp [hp])]
      by_cases hk1 : kv.1 = k
      · have hk : ¬((u ++ [':']).isPrefixOf k = true) := by
          rw [← hk1]; exact hp
        simp [mapGet, hk1, hk]
      · simp [mapGet, hk1, ih]

theorem filter_token_deleteByToken (store : SessionStore) (token : Str) :
    (deleteByToken store token).filter (fun r => r.token == token) = [] := by
  induction store with
  | nil => rfl
  | cons r rest ih =>
    by_cases h : (r.token == token) = true
    · simp only [deleteByToken, List.filter_cons, h, Bool.not_true, if_false]
      exact ih
    · simp only [deleteByToken, List.filter_cons, h, Bool.not_false, if_true,
        if_false]
      exact ih

theorem findSession_deleteByToken (store : SessionStore) (token : Str) :
    findSession (deleteByToken store token) token = none := by
  unfold findSession
  rw [filter_token_deleteByToken]

theorem append_colon_inj (u1 e1 u2 e2 : Str) (hu1 : ':' ∉ u1) (hu2 : ':' ∉ u2)
    (h : u1 ++ ':' :: e1 = u2 ++ ':' :: e2) : u1 = u2 ∧ e1 = e2 := by
  induction u1 generalizing u2 with
  | nil =>
    cases u2 with
    | nil => simpa using h
    | cons c u2' =>
      simp only [List.nil_append, List.cons_append, List.cons.injEq] at h
      apply absurd _ hu2
      rw [← h.1]
      exact List.mem_cons_self _ _
  | cons a u1' ih =>
    cases u2 with
    | nil =>
      simp only [List.nil_append, List.cons_append, List.cons.injEq] at h
      apply absurd _ hu1
      rw [h.1]
      exact List.mem_cons_self _ _
    | cons c u2' =>
      simp only [List.cons_append, List.cons.injEq] at h
      have hu1' : ':' ∉ u1' := fun hm => hu1 (List.mem_cons_of_mem a hm)
      have hu2' : ':' ∉ u2' := fun hm => hu2 (List.mem_cons_of_mem c hm)
      obtain ⟨h1, h2⟩ := ih u2' hu1' hu2' h.2
      exact ⟨by rw [h.1, h1], h2⟩

theorem not_prefixOf_cross (u o e : Str) (hu : ':' ∉ u) (ho : ':' ∉ o)
    (hne : o ≠ u) : (u ++ [':']).isPrefixOf (o ++ ':' :: e) = false := by
  rw [Bool.eq_false_iff]
  intro hpf
  obtain ⟨t, ht⟩ := List.isPrefixOf_iff_prefix.mp hpf
  rw [List.append_assoc] at ht
  have ht' : u ++ ':' :: t = o ++ ':' :: e := by simpa using ht
  exact hne ((append_colon_inj u t o e hu ho ht').1.symm)

theorem prefixOf_self_key (u e : Str) :
    (u ++ [':']).isPrefixOf (u ++ ':' :: e) = true :=
  List.isPrefixOf_iff_prefix.mpr ⟨e, by simp⟩

theorem getCachedOrFetch_hit {ε α : Type} (now : Int) (m : CacheMap α)
    (u e : Str) (f : Except ε α) (ttl : Int) (c : CacheEntry α)
    (hc : mapGet m (getCacheKey u e) = some c) (hl : now < c.expiresAt) :
    getCachedOrFetch now m u e f ttl = ⟨Except.ok c.data, m, 0⟩ := by
  unfold getCachedOrFetch
  rw [hc]
  simp [hl]

theorem getCachedOrFetch_miss {ε α : Type} (now : Int) (m : CacheMap α)
    (u e : Str) (f : Except ε α) (ttl : Int)
    (h : ∀ c, mapGet m (getCacheKey u e) = some c → c.expiresAt ≤ now) :
    getCachedOrFetch now m u e f ttl =
      fetchStore now m (getCacheKey u e) f ttl := by
  unfold getCachedOrFetch
  cases hm : mapGet m (getCacheKey u e) with
  | none => rfl
  | some c =>
    have hle := h c hm
    have hnot : ¬c.expiresAt > now := by omega
    simp [hnot]

/-! ## Claim theorems: session validation and middleware -/

/-- C1 (amended): session validation returns the owning identity exactly when
the store holds the row for the token and the current time is less than or
equal to the stored expiry; for an absent, unknown or expired token it
returns `none`. (The source treats a session as expired only when
`expires_at < now`, so at `now = expires_at` the identity is returned.) -/
theorem verifySession_some_iff (now : Int) (store : SessionStore) (token : Str)
    (deleteOk : Bool) (u : Str) :
    (verifySessionToken now store token deleteOk).1 = some u ↔
      ∃ s, findSession store token = some s ∧ s.user_id = u ∧
        now ≤ s.expires_at := by
  unfold verifySessionToken
  cases hf : findSession store token with
  | none => simp
  | some s =>
    by_cases he : s.expires_at < now
    · simp only [he, if_true]
      constructor
      · intro h
        simp at h
      · rintro ⟨s', hs', -, hle⟩
        cases hs'
        omega
    · simp only [he, if_false]
      constructor
      · intro h
        simp at h
        exact ⟨s, rfl, h, by omega⟩
      · rintro ⟨s', hs', hu, -⟩
        cases hs'
        simpa using hu

/-- C1 counterexample: at the boundary `now = expires_at` the code returns
the owning identity, while the claim (valid iff `now < expiry`, strictly)
demands a "no identity" result. -/
theorem verifySession_boundary_cex :
    (verifySessionToken 100 [⟨['t'], ['u'], 100⟩] ['t'] true).1 = some ['u'] ∧
    ¬(100 : Int) < 100 :=
  ⟨by decide, by decide⟩

/-- C2: for a session whose expiry is strictly in the past, validation
returns `none` and deletes the row, so a subsequent lookup of the token
misses; and when the delete call fails (`deleteOk = false`, the source
discards the delete outcome) validation still returns `none`. -/
theorem verifySession_expired (now : Int) (store : SessionStore) (token : Str)
    (s : SessionRow) (hf : findSession store token = some s)
    (he : s.expires_at < now) :
    (verifySessionToken now store token true).1 = none ∧
    findSession (verifySessionToken now store token true).2 token = none ∧
    (verifySessionToken now store token false).1 = none ∧
    (verifySessionToken now store token false).2 = store := by
  unfold verifySessionToken
  rw [hf]
  simp [he, findSession_deleteByToken]

/-- C2 witness at a concrete expired session. -/
theorem verifySession_expired_witness :
    (verifySessionToken 1 [⟨['t'], ['u'], 0⟩] ['t'] true).1 = none ∧
    findSession (verifySessionToken 1 [⟨['t'], ['u'], 0⟩] ['t'] true).2 ['t']
      = none ∧
    (verifySessionToken 1 [⟨['t'], ['u'], 0⟩] ['t'] false).1 = none ∧
    (verifySessionToken 1 [⟨['t'], ['u'], 0⟩] ['t'] false).2
      = [⟨['t'], ['u'], 0⟩] :=
  verifySession_expired 1 [⟨['t'], ['u'], 0⟩] ['t'] ⟨['t'], ['u'], 0⟩
    (by decide) (by decide)

/-- C3: for a session whose expiry is strictly in the future, validation
returns the owning identity and leaves the store untouched, whatever the
(unused) delete outcome would have been. -/
theorem verifySession_live (now : Int) (store : SessionStore) (token : Str)
    (s : SessionRow) (deleteOk : Bool) (hf : findSession store token = some s)
    (he : now < s.expires_at) :
    verifySessionToken now store token deleteOk = (some s.user_id, store) := by
  have hnot : ¬s.expires_at < now := by omega
  unfold verifySessionToken
  rw [hf]
  simp [hnot]

/-- C3 witness at a concrete live session. -/
theorem verifySession_live_witness :
    verifySessionToken 5 [⟨['t'], ['u'], 9⟩] ['t'] true
      = (some ['u'], [⟨['t'], ['u'], 9⟩]) :=
  verifySession_live 5 [⟨['t'], ['u'], 9⟩] ['t'] ⟨['t'], ['u'], 9⟩ true
    (by decide) (by decide)

/-- C4: the auth path fails closed: `requireAuth` only ever sends a 401 (or
no reply at all, never a 500); neither middleware attaches an identity unless
verification resolved exactly that identity; and on a thrown verification
error `requireAuth` replies 401 with a null identity while `optionalAuth`
proceeds silently with a null identity. -/
theorem auth_fail_closed (c : Option Str) (v : Except Unit (Option Str)) :
    ((requireAuth c v).status = none ∨ (requireAuth c v).status = some 401) ∧
    (∀ u, (requireAuth c v).userId = some u → v = Except.ok (some u)) ∧
    (∀ u, (optionalAuth c v).userId = some u → v = Except.ok (some u)) ∧
    (v = Except.error () →
      (requireAuth c v).userId = none ∧ (requireAuth c v).status = some 401 ∧
      optionalAuth c v = ⟨none, none, none⟩) := by
  unfold requireAuth optionalAuth
  by_cases hc : truthy c = false
  · simp [hc]
  · rcases v with e | uid
    · simp [hc]
    · by_cases hu : truthy uid = false
      · simp [hc, hu]
      · simp only [hc, hu, if_false]
        refine ⟨Or.inl rfl, ?_, ?_, by simp⟩
        · intro u h
          simp at h
          rw [h]
        · intro u h
          simp [Bool.not_eq_false] at hu
          simp [hu] at h
          rw [h]

/-- C4 witness: a thrown verification error at a concrete request. -/
theorem auth_fail_closed_witness :
    (requireAuth (some ['t']) (Except.error ())).userId = none ∧
    (requireAuth (some ['t']) (Except.error ())).status = some 401 ∧
    optionalAuth (some ['t']) (Except.error ()) = ⟨none, none, none⟩ :=
  (auth_fail_closed (some ['t']) (Except.error ())).2.2.2 rfl

/-- C5 counterexample: a session row with an empty-string user id:
verification resolves the identity `""`, but `optionalAuth` proceeds with a
null identity instead of the resolved id (`userId || null` coerces the empty
string to null). -/
theorem optionalAuth_empty_id_cex :
    (verifySessionToken 0 [⟨['t'], [], 100⟩] ['t'] true).1 = some [] ∧
    (optionalAuth (some ['t'])
        (Except.ok (verifySessionToken 0 [⟨['t'], [], 100⟩] ['t'] true).1)).userId
      = none :=
  ⟨by decide, by decide⟩

/-- C5 (amended): strict mode replies 401 and leaves the identity null
whenever no identity resolves (missing or empty cookie, thrown error,
unknown token or expired session, and likewise an empty-string resolved id,
which both middlewares coerce to "no identity"); permissive mode never sends
a reply and sets the identity to the resolved user id when that id is
non-empty, null otherwise. -/
theorem auth_modes (c : Option Str) (v : Except Unit (Option Str)) :
    (optionalAuth c v).status = none ∧ (optionalAuth c v).body = none ∧
    ((truthy c = false ∨ v = Except.error () ∨ v = Except.ok none ∨
        v = Except.ok (some [])) →
      (requireAuth c v).status = some 401 ∧ (requireAuth c v).userId = none ∧
      (optionalAuth c v).userId = none) ∧
    (∀ u : Str, u ≠ [] → truthy c = true → v = Except.ok (some u) →
      requireAuth c v = ⟨some u, none, none⟩ ∧
      (optionalAuth c v).userId = some u) := by
  unfold requireAuth optionalAuth
  by_cases hc : truthy c = false
  · simp [hc]
  · simp only [Bool.not_eq_false] at hc
    rcases v with e | uid
    · simp [hc]
    · rcases uid with _ | u
      · simp [hc, show truthy none = false from rfl]
      · rcases u with _ | ⟨ch, u'⟩
        · simp [hc, show truthy (some ([] : Str)) = false from rfl]
        · simp [hc, show truthy (some (ch :: u')) = true from rfl]

/-- C5 witness: a concrete request with a valid non-empty resolved id. -/
theorem auth_modes_witness :
    requireAuth (some ['t']) (Except.ok (some ['u'])) = ⟨some ['u'], none, none⟩ ∧
    (optionalAuth (some ['t']) (Except.ok (some ['u']))).userId = some ['u'] :=
  (auth_modes (some ['t']) (Except.ok (some ['u']))).2.2.2 ['u']
    (by decide) (by decide) rfl

/-! ## Claim theorems: cache -/

/-- C6: `getCachedOrFetch` returns the cached value without invoking the
producer when a live entry (expiry strictly above the current time) exists;
otherwise it invokes the producer exactly once, stores the value with expiry
`now + ttl` and returns it; consequently two calls within the ttl, starting
with no live entry, invoke the producer exactly once in total and both
return the produced value. -/
theorem getCachedOrFetch_contract {ε α : Type} (now : Int) (m : CacheMap α)
    (u e : Str) (f : Except ε α) (ttl : Int) :
    (∀ c, mapGet m (getCacheKey u e) = some c → c.expiresAt > now →
      getCachedOrFetch now m u e f ttl = ⟨Except.ok c.data, m, 0⟩) ∧
    (∀ v : α, (∀ c, mapGet m (getCacheKey u e) = some c → c.expiresAt ≤ now) →
      getCachedOrFetch now m u e (Except.ok v : Except ε α) ttl =
        ⟨Except.ok v, mapSet m (getCacheKey u e)
          ⟨v, now + ttl * 60 * 1000⟩, 1⟩) ∧
    (∀ (t1 t2 : Int) (v1 v2 : α),
      (∀ c, mapGet m (getCacheKey u e) = some c → c.expiresAt ≤ t1) →
      t1 ≤ t2 → t2 < t1 + ttl * 60 * 1000 →
      (getCachedOrFetch t1 m u e (Except.ok v1 : Except ε α) ttl).result
          = Except.ok v1 ∧
      (getCachedOrFetch t1 m u e (Except.ok v1 : Except ε α) ttl).calls = 1 ∧
      getCachedOrFetch t2
          (getCachedOrFetch t1 m u e (Except.ok v1 : Except ε α) ttl).cache
          u e (Except.ok v2 : Except ε α) ttl
        = ⟨Except.ok v1,
            (getCachedOrFetch t1 m u e (Except.ok v1 : Except ε α) ttl).cache,
            0⟩) := by
  refine ⟨?_, ?_, ?_⟩
  · intro c hc hl
    exact getCachedOrFetch_hit now m u e f ttl c hc (by omega)
  · intro v hmiss
    rw [getCachedOrFetch_miss now m u e _ ttl hmiss]
    rfl
  · intro t1 t2 v1 v2 hmiss h12 hlt
    have h1 : getCachedOrFetch t1 m u e (Except.ok v1 : Except ε α) ttl =
        ⟨Except.ok v1, mapSet m (getCacheKey u e)
          ⟨v1, t1 + ttl * 60 * 1000⟩, 1⟩ := by
      rw [getCachedOrFetch_miss t1 m u e _ ttl hmiss]
      rfl
    refine ⟨by rw [h1], by rw [h1], ?_⟩
    rw [h1]
    exact getCachedOrFetch_hit t2 _ u e _ ttl ⟨v1, t1 + ttl * 60 * 1000⟩
      (mapGet_mapSet_self m (getCacheKey u e) _) (by dsimp only; omega)

/-- C6 witness: miss then hit within the ttl on a concrete cache. -/
theorem getCachedOrFetch_contract_witness :
    (getCachedOrFetch 0 ([] : CacheMap Nat) ['a'] ['b']
        (Except.ok 7 : Except Unit Nat) 1).result = Except.ok 7 ∧
    (getCachedOrFetch 0 ([] : CacheMap Nat) ['a'] ['b']
        (Except.ok 7 : Except Unit Nat) 1).calls = 1 ∧
    getCachedOrFetch 30000 (getCachedOrFetch 0 ([] : CacheMap Nat) ['a'] ['b']
        (Except.ok 7 : Except Unit Nat) 1).cache ['a'] ['b']
        (Except.ok 9 : Except Unit Nat) 1
      = ⟨Except.ok 7, (getCachedOrFetch 0 ([] : CacheMap Nat) ['a'] ['b']
          (Except.ok 7 : Except Unit Nat) 1).cache, 0⟩ :=
  (getCachedOrFetch_contract 0 ([] : CacheMap Nat) ['a'] ['b']
      (Except.ok 7 : Except Unit Nat) 1).2.2 0 30000 7 9
    (fun c hc => by simp [mapGet] at hc) (by decide) (by decide)

/-- C7: a call against a stale entry (ttl elapsed, `expiresAt ≤ now`) is a
miss: the producer is invoked (once), the fresh value is returned, and the
stale entry is overwritten by the fresh one with expiry `now + ttl`. -/
theorem getCachedOrFetch_stale_refetch {ε α : Type} (now : Int)
    (m : CacheMap α) (u e : Str) (c : CacheEntry α) (v : α) (ttl : Int)
    (hc : mapGet m (getCacheKey u e) = some c) (hstale : c.expiresAt ≤ now) :
    getCachedOrFetch now m u e (Except.ok v : Except ε α) ttl
      = ⟨Except.ok v, mapSet m (getCacheKey u e)
          ⟨v, now + ttl * 60 * 1000⟩, 1⟩ ∧
    mapGet ((getCachedOrFetch now m u e (Except.ok v : Except ε α) ttl).cache)
        (getCacheKey u e) = some ⟨v, now + ttl * 60 * 1000⟩ := by
  have hmiss : ∀ c', mapGet m (getCacheKey u e) = some c' →
      c'.expiresAt ≤ now := by
    intro c' hc'
    rw [hc] at hc'
    cases hc'
    exact hstale
  have h1 : getCachedOrFetch now m u e (Except.ok v : Except ε α) ttl
      = ⟨Except.ok v, mapSet m (getCacheKey u e)
          ⟨v, now + ttl * 60 * 1000⟩, 1⟩ := by
    rw [getCachedOrFetch_miss now m u e _ ttl hmiss]
    rfl
  refine ⟨h1, ?_⟩
  rw [h1]
  exact mapGet_mapSet_self m (getCacheKey u e) _

/-- C7 witness: a concrete stale entry, read exactly when its ttl elapsed. -/
theorem getCachedOrFetch_stale_refetch_witness :
    getCachedOrFetch 10 [(getCacheKey ['a'] ['b'], (⟨5, 10⟩ : CacheEntry Nat))]
        ['a'] ['b'] (Except.ok 8 : Except Unit Nat) 1
      = ⟨Except.ok 8, mapSet [(getCacheKey ['a'] ['b'],
          (⟨5, 10⟩ : CacheEntry Nat))] (getCacheKey ['a'] ['b'])
          ⟨8, 10 + 1 * 60 * 1000⟩, 1⟩ ∧
    mapGet ((getCachedOrFetch 10 [(getCacheKey ['a'] ['b'],
          (⟨5, 10⟩ : CacheEntry Nat))] ['a'] ['b']
          (Except.ok 8 : Except Unit Nat) 1).cache) (getCacheKey ['a'] ['b'])
      = some ⟨8, 10 + 1 * 60 * 1000⟩ :=
  getCachedOrFetch_stale_refetch 10
    [(getCacheKey ['a'] ['b'], (⟨5, 10⟩ : CacheEntry Nat))] ['a'] ['b']
    ⟨5, 10⟩ 8 1 (by decide) (by decide)

/-- C9: when the producer fails, the cache map is exactly as before the call,
and on a miss the error propagates unchanged to the caller after exactly one
invocation (on a hit the producer is never run, so it cannot fail). -/
theorem getCachedOrFetch_error_atomic {ε α : Type} (now : Int)
    (m : CacheMap α) (u e : Str) (err : ε) (ttl : Int) :
    (getCachedOrFetch now m u e (Except.error err : Except ε α) ttl).cache
        = m ∧
    ((∀ c, mapGet m (getCacheKey u e) = some c → c.expiresAt ≤ now) →
      getCachedOrFetch now m u e (Except.error err : Except ε α) ttl
        = ⟨Except.error err, m, 1⟩) := by
  constructor
  · unfold getCachedOrFetch
    cases hm : mapGet m (getCacheKey u e) with
    | none => rfl
    | some c =>
      by_cases hl : c.expiresAt > now
      · simp [hl]
      · simp [hl, fetchStore]
  · intro hmiss
    rw [getCachedOrFetch_miss now m u e _ ttl hmiss]
    rfl

/-- C9 witness: a failing producer on a concrete empty cache. -/
theorem getCachedOrFetch_error_atomic_witness :
    getCachedOrFetch 0 ([] : CacheMap Nat) ['a'] ['b']
        (Except.error 3 : Except Nat Nat) 1 = ⟨Except.error 3, [], 1⟩ :=
  (getCachedOrFetch_error_atomic 0 ([] : CacheMap Nat) ['a'] ['b'] 3 1).2
    (fun c hc => by simp [mapGet] at hc)

/-- C8 counterexample: the entry stored under owner "u1:x" (endpoint "y") is
removed by `clearUser "u1"` although its owner differs from "u1". -/
theorem clearUser_cross_owner_cex :
    (['u', '1', ':', 'x'] : Str) ≠ ['u', '1'] ∧
    mapGet (mapSet ([] : CacheMap Nat)
        (getCacheKey ['u', '1', ':', 'x'] ['y']) ⟨0, 100⟩)
      (getCacheKey ['u', '1', ':', 'x'] ['y']) = some ⟨0, 100⟩ ∧
    mapGet (clearUser (mapSet ([] : CacheMap Nat)
        (getCacheKey ['u', '1', ':', 'x'] ['y']) ⟨0, 100⟩) ['u', '1'])
      (getCacheKey ['u', '1', ':', 'x'] ['y']) = none :=
  ⟨by decide, by decide, by decide⟩

/-- C8 (amended): `clearUser u` removes every entry whose owner is `u`;
provided owner strings contain no ':' character it removes no entry whose
owner differs from `u` (in general an entry of a different owner is removed
when its key string begins with `u` followed by ':'). -/
theorem clearUser_spec {α : Type} (m : CacheMap α) (u : Str) :
    (∀ e, mapGet (clearUser m u) (getCacheKey u e) = none) ∧
    (∀ o e, ':' ∉ u → ':' ∉ o → o ≠ u →
      mapGet (clearUser m u) (getCacheKey o e)
        = mapGet m (getCacheKey o e)) := by
  constructor
  · intro e
    rw [mapGet_clearUser]
    rw [if_pos]
    simp only [getCacheKey]
    exact prefixOf_self_key u e
  · intro o e hu ho hne
    rw [mapGet_clearUser]
    rw [if_neg]
    simp only [getCacheKey]
    rw [not_prefixOf_cross u o e hu ho hne]
    exact Bool.false_ne_true

/-- C8 witness: a concrete cache with one entry each for owners "a" and "u";
`clearUser "u"` removes the "u" entry and leaves the "a" entry readable. -/
theorem clearUser_spec_witness :
    mapGet (clearUser [(getCacheKey ['u'] ['e'], (⟨1, 9⟩ : CacheEntry Nat)),
        (getCacheKey ['a'] ['b'], ⟨2, 9⟩)] ['u']) (getCacheKey ['u'] ['e'])
      = none ∧
    mapGet (clearUser [(getCacheKey ['u'] ['e'], (⟨1, 9⟩ : CacheEntry Nat)),
        (getCacheKey ['a'] ['b'], ⟨2, 9⟩)] ['u']) (getCacheKey ['a'] ['b'])
      = mapGet [(getCacheKey ['u'] ['e'], (⟨1, 9⟩ : CacheEntry Nat)),
        (getCacheKey ['a'] ['b'], ⟨2, 9⟩)] (getCacheKey ['a'] ['b']) :=
  ⟨(clearUser_spec [(getCacheKey ['u'] ['e'], (⟨1, 9⟩ : CacheEntry Nat)),
        (getCacheKey ['a'] ['b'], ⟨2, 9⟩)] ['u']).1 ['e'],
   (clearUser_spec [(getCacheKey ['u'] ['e'], (⟨1, 9⟩ : CacheEntry Nat)),
        (getCacheKey ['a'] ['b'], ⟨2, 9⟩)] ['u']).2 ['a'] ['b']
     (by decide) (by decide) (by decide)⟩

/-- C10: the cache key function is not injective — ("a", "b:c") and
("a:b", "c") share the key "a:b:c", a `getCachedOrFetch` for one pair
returns the value cached for the other (without invoking the producer), and
`clearUser "u1"` deletes an entry of owner "u1:x"; but for owners and
endpoints containing no ':' the key function is injective and `clearUser`
removes no entry of a different owner. -/
theorem getCacheKey_collisions :
    (getCacheKey ['a'] ['b', ':', 'c'] = getCacheKey ['a', ':', 'b'] ['c'] ∧
      ¬(['a'] = ['a', ':', 'b'] ∧ (['b', ':', 'c'] : Str) = ['c'])) ∧
    (getCachedOrFetch 10 (getCachedOrFetch 0 ([] : CacheMap Nat)
          ['a', ':', 'b'] ['c'] (Except.ok 7 : Except Unit Nat) 1).cache
        ['a'] ['b', ':', 'c'] (Except.ok 8 : Except Unit Nat) 1).result
        = Except.ok 7 ∧
    (getCachedOrFetch 10 (getCachedOrFetch 0 ([] : CacheMap Nat)
          ['a', ':', 'b'] ['c'] (Except.ok 7 : Except Unit Nat) 1).cache
        ['a'] ['b', ':', 'c'] (Except.ok 8 : Except Unit Nat) 1).calls = 0 ∧
    mapGet (clearUser [(getCacheKey ['u', '1', ':', 'x'] ['y'],
        (⟨0, 100⟩ : CacheEntry Nat))] ['u', '1'])
      (getCacheKey ['u', '1', ':', 'x'] ['y']) = none ∧
    (∀ u1 e1 u2 e2 : Str, ':' ∉ u1 → ':' ∉ e1 → ':' ∉ u2 → ':' ∉ e2 →
      getCacheKey u1 e1 = getCacheKey u2 e2 → u1 = u2 ∧ e1 = e2) ∧
    (∀ (m : CacheMap Nat) (u o e : Str), ':' ∉ u → ':' ∉ o → o ≠ u →
      mapGet (clearUser m u) (getCacheKey o e)
        = mapGet m (getCacheKey o e)) := by
  refine ⟨⟨by decide, by decide⟩, by decide, by decide, by decide, ?_, ?_⟩
  · intro u1 e1 u2 e2 hu1 _ hu2 _ h
    simp only [getCacheKey] at h
    exact append_colon_inj u1 e1 u2 e2 hu1 hu2 h
  · intro m u o e hu ho hne
    rw [mapGet_clearUser]
    rw [if_neg]
    simp only [getCacheKey]
    rw [not_prefixOf_cross u o e hu ho hne]
    exact Bool.false_ne_true

/-- C10 witness: the colon-free injectivity and non-interference parts at
concrete inputs. -/
theorem getCacheKey_collisions_witness :
    ((['x'] : Str) = ['x'] ∧ (['y'] : Str) = ['y']) ∧
    mapGet (clearUser [(getCacheKey ['o'] ['e'], (⟨4, 9⟩ : CacheEntry Nat))]
        ['u']) (getCacheKey ['o'] ['e'])
      = mapGet [(getCacheKey ['o'] ['e'], (⟨4, 9⟩ : CacheEntry Nat))]
          (getCacheKey ['o'] ['e']) :=
  ⟨getCacheKey_collisions.2.2.2.2.1 ['x'] ['y'] ['x'] ['y']
      (by decide) (by decide) (by decide) (by decide) rfl,
   getCacheKey_collisions.2.2.2.2.2
      [(getCacheKey ['o'] ['e'], (⟨4, 9⟩ : CacheEntry Nat))] ['u'] ['o'] ['e']
      (by decide) (by decide) (by decide)⟩

end SlateAPI
